import Mathlib

/-!
Verification development for the pronunciation-clips repository.

The definitions below are a shallow embedding of the Python sources under
`src/`: Python floats are modelled as rationals (all constants involved are
exact decimals), Python strings as Lean `String`/`List Char`, fallible
constructors (pydantic validation) as `Option`, and raised-vs-returned
behaviour of the two transcription backends as `Except`.

Embedded modules:
- `src/shared/models.py` (Entity with its pydantic field constraints and
  validators, WordDatabase),
- `src/audio_to_json/entity_creation.py` (EntityCreator: create_entities,
  apply_quality_filters, _get_speaker_id, _estimate_syllables,
  _calculate_quality_score),
- `src/audio_to_json/pipeline.py` (_apply_smart_buffering),
- `src/audio_to_json/speaker_identification.py` (_apply_list_mapping),
- `src/audio_to_json/transcription.py` (both whisper backends' word
  extraction),
- `src/audio_to_json/diarization.py` (process_audio error handling,
  _validate_result, _create_single_speaker_fallback),
- `src/audio_to_json/database_writer.py` (JSON dump / re-validate round trip).
-/

namespace PronClips

/-! ## Python string primitives

`str.lower` is modelled on the alphabet relevant to this code base
(ASCII letters plus the Spanish accented vowels and enye); all other
characters are fixed.  `str.strip` removes leading and trailing ASCII
whitespace. -/

/-- Model of Python `str.lower` on one character: ASCII A-Z plus the
uppercase Spanish letters Á É Í Ó Ú Ü Ñ are lowered, all else unchanged. -/
def pyLowerChar (c : Char) : Char :=
  if 'A' ≤ c ∧ c ≤ 'Z' then Char.ofNat (c.toNat + 32)
  else if c = 'Á' then 'á'
  else if c = 'É' then 'é'
  else if c = 'Í' then 'í'
  else if c = 'Ó' then 'ó'
  else if c = 'Ú' then 'ú'
  else if c = 'Ü' then 'ü'
  else if c = 'Ñ' then 'ñ'
  else c

/-- Whitespace characters removed by Python `str.strip()`. -/
def isPySpace (c : Char) : Bool :=
  c = ' ' ∨ c = '\t' ∨ c = '\n' ∨ c = '\x0d' ∨ c = '\x0b' ∨ c = '\x0c'

/-- Model of Python `str.strip` on a character list. -/
def pyStripChars (l : List Char) : List Char :=
  ((l.dropWhile isPySpace).reverse.dropWhile isPySpace).reverse

/-- Model of Python `str.strip`. -/
def pyStrip (s : String) : String := ⟨pyStripChars s.data⟩

/-- Model of Python `str.lower`. -/
def pyLower (s : String) : String := ⟨s.data.map pyLowerChar⟩

/-! ## Syllable estimator (`EntityCreator._estimate_syllables`) -/

/-- The Spanish vowel set used by `_estimate_syllables`
(`vowels = "aeiouáéíóúü"`). -/
def spanishVowels : List Char := ['a', 'e', 'i', 'o', 'u', 'á', 'é', 'í', 'ó', 'ú', 'ü']

/-- `char in vowels` test of `_estimate_syllables`. -/
def isVowel (c : Char) : Bool := spanishVowels.contains c

/-- The two-letter combinations recognised by the diphthong check in
`_estimate_syllables`
(`["ai","au","ei","eu","oi","ou","ia","ie","io","iu","ua","ue","ui","uo"]`).
Note the source list has 14 entries: it does not contain "oa" or "oe". -/
def diphthongPairs : List (Char × Char) :=
  [('a', 'i'), ('a', 'u'), ('e', 'i'), ('e', 'u'), ('o', 'i'), ('o', 'u'),
   ('i', 'a'), ('i', 'e'), ('i', 'o'), ('i', 'u'),
   ('u', 'a'), ('u', 'e'), ('u', 'i'), ('u', 'o')]

/-- `char + text[i+1] in [...]` diphthong test. -/
def isDiph (c d : Char) : Bool := diphthongPairs.contains (c, d)

/-- Python `syllables[-1] += current` when `syllables` is non-empty, and
`syllables.append(current)` when it is empty (the tail of
`_estimate_syllables` after the scan loop). -/
def appendToLast (syls : List (List Char)) (cur : List Char) : List (List Char) :=
  match syls with
  | [] => [cur]
  | [s] => [s ++ cur]
  | s :: rest => s :: appendToLast rest cur

/-- The character scan loop of `_estimate_syllables`.  `t` is the unread
input, `cur` is `current_syllable`, `syls` is `syllables`.  A consonant is
accumulated into `cur`; a vowel closes a syllable after also taking a
following vowel when the two form a listed diphthong, and then a following
consonant when one is present; at end of input a non-empty `cur` is merged
into the last syllable (or becomes the only one). -/
def syllableLoop : List Char → List Char → List (List Char) → List (List Char)
  | [], cur, syls =>
    if cur = [] then syls else appendToLast syls cur
  | [c], cur, syls =>
    if isVowel c then syls ++ [cur ++ [c]]
    else syllableLoop [] (cur ++ [c]) syls
  | [c, d], cur, syls =>
    if isVowel c then
      if isVowel d then
        if isDiph c d then syls ++ [cur ++ [c, d]]
        else syllableLoop [d] [] (syls ++ [cur ++ [c]])
      else syls ++ [cur ++ [c, d]]
    else syllableLoop [d] (cur ++ [c]) syls
  | c :: d :: e :: rest3, cur, syls =>
    if isVowel c then
      if isVowel d then
        if isDiph c d then
          if isVowel e then
            syllableLoop (e :: rest3) [] (syls ++ [cur ++ [c, d]])
          else
            syllableLoop rest3 [] (syls ++ [cur ++ [c, d, e]])
        else syllableLoop (d :: e :: rest3) [] (syls ++ [cur ++ [c]])
      else syllableLoop (e :: rest3) [] (syls ++ [cur ++ [c, d]])
    else syllableLoop (d :: e :: rest3) (cur ++ [c]) syls

/-- `EntityCreator._estimate_syllables`: lowercase and strip the word,
return `[]` for empty input, the special case `["tal"]`, otherwise run the
scan loop; if the loop produced nothing the whole word is one syllable. -/
def estimateSyllables (text : String) : List String :=
  let t := pyStripChars (text.data.map pyLowerChar)
  if t = [] then []
  else if t = "tal".data then ["tal"]
  else
    let syls := syllableLoop t [] []
    if syls = [] then [⟨t⟩] else syls.map fun l => (⟨l⟩ : String)

/-! ## Lemmas about the syllable scan loop -/

theorem appendToLast_flatten (syls : List (List Char)) (cur : List Char) :
    (appendToLast syls cur).flatten = syls.flatten ++ cur := by
  induction syls with
  | nil => simp [appendToLast]
  | cons s rest ih =>
    cases rest with
    | nil => simp [appendToLast]
    | cons s2 rest2 => simpa [appendToLast] using ih

theorem syllableLoop_flatten (t cur : List Char) (syls : List (List Char)) :
    (syllableLoop t cur syls).flatten = syls.flatten ++ cur ++ t := by
  induction t, cur, syls using syllableLoop.induct <;>
    simp_all [syllableLoop, appendToLast_flatten]

theorem string_foldl_append_data (l : List String) (s : String) :
    (l.foldl (· ++ ·) s).data = s.data ++ (l.map String.data).flatten := by
  induction l generalizing s with
  | nil => simp
  | cons x rest ih => simp [ih, String.data_append]

theorem string_join_data (l : List String) :
    (String.join l).data = (l.map String.data).flatten := by
  simp [string_foldl_append_data l ""]

/-- C10: the syllable strings returned by `_estimate_syllables` concatenate,
in order, to exactly the lowercased-and-stripped input word; empty cleaned
input yields the empty list. -/
theorem estimateSyllables_concat (w : String) :
    String.join (estimateSyllables w) = pyStrip (pyLower w) ∧
    (pyStrip (pyLower w) = "" → estimateSyllables w = []) := by
  have hclean : pyStrip (pyLower w) = ⟨pyStripChars (w.data.map pyLowerChar)⟩ := rfl
  set t := pyStripChars (w.data.map pyLowerChar) with hT
  constructor
  · apply String.ext
    rw [string_join_data, hclean]
    by_cases ht : t = []
    · simp [estimateSyllables, ← hT, ht]
    · by_cases htal : t = "tal".data
      · simp [estimateSyllables, ← hT, ht, htal]
      · simp only [estimateSyllables, ← hT, if_neg ht, if_neg htal]
        by_cases hloop : syllableLoop t [] [] = []
        · simp [hloop]
        · simp only [if_neg hloop, List.map_map]
          have : (String.data ∘ fun l => (⟨l⟩ : String)) = id := rfl
          rw [this, List.map_id]
          simpa using syllableLoop_flatten t [] []
  · intro h
    have ht : t = [] := congrArg String.data (hclean ▸ h)
    simp [estimateSyllables, ← hT, ht]

/-- Witness for `estimateSyllables_concat` at concrete inputs. -/
theorem estimateSyllables_concat_witness :
    String.join (estimateSyllables "Hola ") = pyStrip (pyLower "Hola ") ∧
    estimateSyllables "  " = [] :=
  ⟨(estimateSyllables_concat "Hola ").1,
   (estimateSyllables_concat "  ").2 (by decide)⟩


theorem append_singleton_split {α : Type} {syls pre suf2 : List α} {x : α}
    (h : syls ++ [x] = pre ++ suf2) :
    (∃ s3, syls = pre ++ s3) ∨ pre = syls ++ [x] := by
  rcases List.append_eq_append_iff.mp h with ⟨a, ha1, ha2⟩ | ⟨c, hc1, _⟩
  · match a, ha2 with
    | [], _ => exact Or.inl ⟨[], by simpa using ha1.symm⟩
    | [y], h2 =>
      have hy : y = x := by cases h2; rfl
      exact Or.inr (by simp [ha1, hy])
  · exact Or.inl ⟨c, hc1⟩

theorem appendToLast_split (syls : List (List Char)) (cur : List Char) :
    ∀ pre suf, appendToLast syls cur = pre ++ suf →
      (∃ s3, syls = pre ++ s3) ∨
      pre.flatten.length = syls.flatten.length + cur.length := by
  induction syls with
  | nil =>
    intro pre suf h
    have h0 : ([] : List (List Char)) ++ [cur] = pre ++ suf := by
      simpa [appendToLast] using h
    rcases append_singleton_split h0 with ⟨s3, h3⟩ | h2
    · exact Or.inl ⟨s3, h3⟩
    · subst h2; simp
  | cons s rest ih =>
    intro pre suf h
    cases rest with
    | nil =>
      match pre, h with
      | [], _ => exact Or.inl ⟨[s], rfl⟩
      | [p0], hp =>
        have hps : s ++ cur = p0 ∧ suf = [] := by
          simpa [appendToLast] using hp
        right
        simp [← hps.1]
      | p0 :: p1 :: pre2, hp =>
        exfalso
        have := congrArg List.length hp
        simp [appendToLast] at this
    | cons s2 rest2 =>
      match pre, h with
      | [], _ => exact Or.inl ⟨s :: s2 :: rest2, rfl⟩
      | p0 :: pre', hp =>
        have hps : s = p0 ∧ appendToLast (s2 :: rest2) cur = pre' ++ suf := by
          simpa [appendToLast] using hp
        rcases ih pre' suf hps.2 with ⟨s3, h3⟩ | hlen
        · exact Or.inl ⟨s3, by simp [← hps.1, h3]⟩
        · right
          simp [← hps.1, hlen]
          omega

theorem syllableLoop_split (t cur : List Char) (syls : List (List Char)) :
    ∀ pre suf, syllableLoop t cur syls = pre ++ suf →
      (∃ s3, syls = pre ++ s3) ∨
      syls.flatten.length + cur.length ≤ pre.flatten.length := by
  induction t, cur, syls using syllableLoop.induct with
  | case1 syls =>
    intro pre suf h
    exact Or.inl ⟨suf, by simpa [syllableLoop] using h⟩
  | case2 cur syls hcur =>
    intro pre suf h
    have h' : appendToLast syls cur = pre ++ suf := by
      simpa [syllableLoop, hcur] using h
    rcases appendToLast_split syls cur pre suf h' with ⟨s3, h3⟩ | hlen
    · exact Or.inl ⟨s3, h3⟩
    · right; omega
  | case3 c cur syls hc =>
    intro pre suf h
    have h' : syls ++ [cur ++ [c]] = pre ++ suf := by
      simpa [syllableLoop, hc] using h
    rcases append_singleton_split h' with ⟨s3, h3⟩ | h2
    · exact Or.inl ⟨s3, h3⟩
    · right; subst h2; simp only [List.flatten_append, List.flatten_cons, List.flatten_nil, List.append_nil, List.length_append, List.length_cons, List.length_nil]; omega
  | case4 c cur syls hc ih =>
    intro pre suf h
    have h' : syllableLoop [] (cur ++ [c]) syls = pre ++ suf := by
      simpa [syllableLoop, hc] using h
    rcases ih pre suf h' with ⟨s3, h3⟩ | hlen
    · exact Or.inl ⟨s3, h3⟩
    · right; simp only [List.flatten_append, List.flatten_cons, List.flatten_nil, List.append_nil, List.length_append, List.length_cons, List.length_nil] at hlen ⊢; omega
  | case5 c d cur syls hc hd hdip =>
    intro pre suf h
    have h' : syls ++ [cur ++ [c, d]] = pre ++ suf := by
      simpa [syllableLoop, hc, hd, hdip] using h
    rcases append_singleton_split h' with ⟨s3, h3⟩ | h2
    · exact Or.inl ⟨s3, h3⟩
    · right; subst h2; simp only [List.flatten_append, List.flatten_cons, List.flatten_nil, List.append_nil, List.length_append, List.length_cons, List.length_nil]; omega
  | case6 c d cur syls hc hd hdip ih =>
    intro pre suf h
    have h' : syllableLoop [d] [] (syls ++ [cur ++ [c]]) = pre ++ suf := by
      simpa [syllableLoop, hc, hd, hdip] using h
    rcases ih pre suf h' with ⟨s3, h3⟩ | hlen
    · rcases append_singleton_split h3 with ⟨s4, h4⟩ | h5
      · exact Or.inl ⟨s4, h4⟩
      · right; subst h5; simp only [List.flatten_append, List.flatten_cons, List.flatten_nil, List.append_nil, List.length_append, List.length_cons, List.length_nil]; omega
    · right; simp only [List.flatten_append, List.flatten_cons, List.flatten_nil, List.append_nil, List.length_append, List.length_cons, List.length_nil] at hlen ⊢; omega
  | case7 c d cur syls hc hd =>
    intro pre suf h
    have h' : syls ++ [cur ++ [c, d]] = pre ++ suf := by
      simpa [syllableLoop, hc, hd] using h
    rcases append_singleton_split h' with ⟨s3, h3⟩ | h2
    · exact Or.inl ⟨s3, h3⟩
    · right; subst h2; simp only [List.flatten_append, List.flatten_cons, List.flatten_nil, List.append_nil, List.length_append, List.length_cons, List.length_nil]; omega
  | case8 c d cur syls hc ih =>
    intro pre suf h
    have h' : syllableLoop [d] (cur ++ [c]) syls = pre ++ suf := by
      simpa [syllableLoop, hc] using h
    rcases ih pre suf h' with ⟨s3, h3⟩ | hlen
    · exact Or.inl ⟨s3, h3⟩
    · right; simp only [List.flatten_append, List.flatten_cons, List.flatten_nil, List.append_nil, List.length_append, List.length_cons, List.length_nil] at hlen ⊢; omega
  | case9 c d e rest3 cur syls hc hd hdip he ih =>
    intro pre suf h
    have h' : syllableLoop (e :: rest3) [] (syls ++ [cur ++ [c, d]]) = pre ++ suf := by
      simpa [syllableLoop, hc, hd, hdip, he] using h
    rcases ih pre suf h' with ⟨s3, h3⟩ | hlen
    · rcases append_singleton_split h3 with ⟨s4, h4⟩ | h5
      · exact Or.inl ⟨s4, h4⟩
      · right; subst h5; simp only [List.flatten_append, List.flatten_cons, List.flatten_nil, List.append_nil, List.length_append, List.length_cons, List.length_nil]; omega
    · right; simp only [List.flatten_append, List.flatten_cons, List.flatten_nil, List.append_nil, List.length_append, List.length_cons, List.length_nil] at hlen ⊢; omega
  | case10 c d e rest3 cur syls hc hd hdip he ih =>
    intro pre suf h
    have h' : syllableLoop rest3 [] (syls ++ [cur ++ [c, d, e]]) = pre ++ suf := by
      simpa [syllableLoop, hc, hd, hdip, he] using h
    rcases ih pre suf h' with ⟨s3, h3⟩ | hlen
    · rcases append_singleton_split h3 with ⟨s4, h4⟩ | h5
      · exact Or.inl ⟨s4, h4⟩
      · right; subst h5; simp only [List.flatten_append, List.flatten_cons, List.flatten_nil, List.append_nil, List.length_append, List.length_cons, List.length_nil]; omega
    · right; simp only [List.flatten_append, List.flatten_cons, List.flatten_nil, List.append_nil, List.length_append, List.length_cons, List.length_nil] at hlen ⊢; omega
  | case11 c d e rest3 cur syls hc hd hdip ih =>
    intro pre suf h
    have h' : syllableLoop (d :: e :: rest3) [] (syls ++ [cur ++ [c]]) = pre ++ suf := by
      simpa [syllableLoop, hc, hd, hdip] using h
    rcases ih pre suf h' with ⟨s3, h3⟩ | hlen
    · rcases append_singleton_split h3 with ⟨s4, h4⟩ | h5
      · exact Or.inl ⟨s4, h4⟩
      · right; subst h5; simp only [List.flatten_append, List.flatten_cons, List.flatten_nil, List.append_nil, List.length_append, List.length_cons, List.length_nil]; omega
    · right; simp only [List.flatten_append, List.flatten_cons, List.flatten_nil, List.append_nil, List.length_append, List.length_cons, List.length_nil] at hlen ⊢; omega
  | case12 c d e rest3 cur syls hc hd ih =>
    intro pre suf h
    have h' : syllableLoop (e :: rest3) [] (syls ++ [cur ++ [c, d]]) = pre ++ suf := by
      simpa [syllableLoop, hc, hd] using h
    rcases ih pre suf h' with ⟨s3, h3⟩ | hlen
    · rcases append_singleton_split h3 with ⟨s4, h4⟩ | h5
      · exact Or.inl ⟨s4, h4⟩
      · right; subst h5; simp only [List.flatten_append, List.flatten_cons, List.flatten_nil, List.append_nil, List.length_append, List.length_cons, List.length_nil]; omega
    · right; simp only [List.flatten_append, List.flatten_cons, List.flatten_nil, List.append_nil, List.length_append, List.length_cons, List.length_nil] at hlen ⊢; omega
  | case13 c d e rest3 cur syls hc ih =>
    intro pre suf h
    have h' : syllableLoop (d :: e :: rest3) (cur ++ [c]) syls = pre ++ suf := by
      simpa [syllableLoop, hc] using h
    rcases ih pre suf h' with ⟨s3, h3⟩ | hlen
    · exact Or.inl ⟨s3, h3⟩
    · right; simp only [List.flatten_append, List.flatten_cons, List.flatten_nil, List.append_nil, List.length_append, List.length_cons, List.length_nil] at hlen ⊢; omega


theorem flatten_len_of_eq {a b : List (List Char)} (h : a = b) :
    a.flatten.length = b.flatten.length := by rw [h]

theorem syllableLoop_no_break_nil
    (cur : List Char) (syls : List (List Char)) (c d : Char) (s : List Char)
    (hc : isVowel c = true) (hd : isVowel d = true) (hdip : isDiph c d = true) :
    ∀ pre suf, syllableLoop (c :: d :: s) cur syls = pre ++ suf →
      pre.flatten.length ≠ syls.flatten.length + cur.length + 1 := by
  intro pre suf hsplit
  cases s with
  | nil =>
    have h' : syls ++ [cur ++ [c, d]] = pre ++ suf := by
      simpa [syllableLoop, hc, hd, hdip] using hsplit
    rcases append_singleton_split h' with ⟨s3, h3⟩ | h2
    · have := flatten_len_of_eq h3
      simp only [List.flatten_append, List.length_append] at this
      omega
    · subst h2
      simp only [List.flatten_append, List.flatten_cons, List.flatten_nil,
        List.append_nil, List.length_append, List.length_cons, List.length_nil]
      omega
  | cons e s' =>
    by_cases he : isVowel e = true
    · have h' : syllableLoop (e :: s') [] (syls ++ [cur ++ [c, d]]) = pre ++ suf := by
        simpa [syllableLoop, hc, hd, hdip, he] using hsplit
      rcases syllableLoop_split _ _ _ pre suf h' with ⟨s3, h3⟩ | hlen
      · rcases append_singleton_split h3 with ⟨s4, h4⟩ | h5
        · have := flatten_len_of_eq h4
          simp only [List.flatten_append, List.length_append] at this
          omega
        · subst h5
          simp only [List.flatten_append, List.flatten_cons, List.flatten_nil,
            List.append_nil, List.length_append, List.length_cons, List.length_nil]
          omega
      · simp only [List.flatten_append, List.flatten_cons, List.flatten_nil,
          List.append_nil, List.length_append, List.length_cons, List.length_nil] at hlen
        omega
    · have h' : syllableLoop s' [] (syls ++ [cur ++ [c, d, e]]) = pre ++ suf := by
        simpa [syllableLoop, hc, hd, hdip, he] using hsplit
      rcases syllableLoop_split _ _ _ pre suf h' with ⟨s3, h3⟩ | hlen
      · rcases append_singleton_split h3 with ⟨s4, h4⟩ | h5
        · have := flatten_len_of_eq h4
          simp only [List.flatten_append, List.length_append] at this
          omega
        · subst h5
          simp only [List.flatten_append, List.flatten_cons, List.flatten_nil,
            List.append_nil, List.length_append, List.length_cons, List.length_nil]
          omega
      · simp only [List.flatten_append, List.flatten_cons, List.flatten_nil,
          List.append_nil, List.length_append, List.length_cons, List.length_nil] at hlen
        omega


theorem syllableLoop_no_break :
    ∀ (n : Nat) (p : List Char), p.length ≤ n →
    ∀ (cur : List Char) (syls : List (List Char)) (c d : Char) (s : List Char),
      isVowel c = true → isVowel d = true → isDiph c d = true →
      (∀ x, (cur ++ p).getLast? = some x → isVowel x = false) →
      ∀ pre suf, syllableLoop (p ++ c :: d :: s) cur syls = pre ++ suf →
        pre.flatten.length ≠ syls.flatten.length + cur.length + p.length + 1 := by
  intro n
  induction n with
  | zero =>
    intro p hp cur syls c d s hc hd hdip _ pre suf hsplit
    have hp0 : p = [] := List.length_eq_zero.mp (Nat.le_zero.mp hp)
    subst hp0
    simpa using syllableLoop_no_break_nil cur syls c d s hc hd hdip pre suf hsplit
  | succ n ihn =>
    intro p hp cur syls c d s hc hd hdip hcond pre suf hsplit
    cases p with
    | nil =>
      simpa using syllableLoop_no_break_nil cur syls c d s hc hd hdip pre suf hsplit
    | cons x p' =>
      by_cases hx : isVowel x = true
      · cases p' with
        | nil =>
          exfalso
          have hlast : (cur ++ [x]).getLast? = some x := List.getLast?_concat _
          have := hcond x hlast
          simp [hx] at this
        | cons y p'' =>
          by_cases hy : isVowel y = true
          · by_cases hxy : isDiph x y = true
            · cases p'' with
              | nil =>
                have h' : syllableLoop (c :: d :: s) [] (syls ++ [cur ++ [x, y]]) = pre ++ suf := by
                  simpa [syllableLoop, hx, hy, hxy, hc] using hsplit
                have hne := ihn [] (by simp) [] (syls ++ [cur ++ [x, y]]) c d s hc hd hdip
                  (by intro w hw; simp at hw) pre suf h'
                simp only [List.flatten_append, List.flatten_cons, List.flatten_nil,
                  List.append_nil, List.length_append, List.length_cons, List.length_nil] at hne ⊢
                omega
              | cons z p3 =>
                by_cases hz : isVowel z = true
                · have h' : syllableLoop (z :: (p3 ++ c :: d :: s)) [] (syls ++ [cur ++ [x, y]]) = pre ++ suf := by
                    simpa [syllableLoop, hx, hy, hxy, hz] using hsplit
                  have hcond2 : ∀ w, (([] : List Char) ++ (z :: p3)).getLast? = some w → isVowel w = false := by
                    intro w hw
                    apply hcond w
                    simp only [List.nil_append] at hw
                    simp [List.getLast?_append, hw]
                  have hne := ihn (z :: p3) (by simp at hp ⊢; omega) [] (syls ++ [cur ++ [x, y]]) c d s hc hd hdip
                    hcond2 pre suf h'
                  simp only [List.flatten_append, List.flatten_cons, List.flatten_nil,
                    List.append_nil, List.length_append, List.length_cons, List.length_nil] at hne ⊢
                  omega
                · have h' : syllableLoop (p3 ++ c :: d :: s) [] (syls ++ [cur ++ [x, y, z]]) = pre ++ suf := by
                    simpa [syllableLoop, hx, hy, hxy, hz] using hsplit
                  have hcond2 : ∀ w, (([] : List Char) ++ p3).getLast? = some w → isVowel w = false := by
                    intro w hw
                    apply hcond w
                    simp only [List.nil_append] at hw
                    cases p3 with
                    | nil => simp at hw
                    | cons a as => simp [List.getLast?_append, hw]
                  have hne := ihn p3 (by simp at hp ⊢; omega) [] (syls ++ [cur ++ [x, y, z]]) c d s hc hd hdip
                    hcond2 pre suf h'
                  simp only [List.flatten_append, List.flatten_cons, List.flatten_nil,
                    List.append_nil, List.length_append, List.length_cons, List.length_nil] at hne ⊢
                  omega
            · have hcond2 : ∀ w, (([] : List Char) ++ (y :: p'')).getLast? = some w → isVowel w = false := by
                intro w hw
                apply hcond w
                simp only [List.nil_append] at hw
                simp [List.getLast?_append, hw]
              cases p'' with
              | nil =>
                have h' : syllableLoop (y :: c :: d :: s) [] (syls ++ [cur ++ [x]]) = pre ++ suf := by
                  simpa [syllableLoop, hx, hy, hxy] using hsplit
                have hne := ihn [y] (by simp at hp ⊢; omega) [] (syls ++ [cur ++ [x]]) c d s hc hd hdip
                  hcond2 pre suf h'
                simp only [List.flatten_append, List.flatten_cons, List.flatten_nil,
                  List.append_nil, List.length_append, List.length_cons, List.length_nil] at hne ⊢
                omega
              | cons z p3 =>
                have h' : syllableLoop (y :: z :: (p3 ++ c :: d :: s)) [] (syls ++ [cur ++ [x]]) = pre ++ suf := by
                  simpa [syllableLoop, hx, hy, hxy] using hsplit
                have hne := ihn (y :: z :: p3) (by simp at hp ⊢; omega) [] (syls ++ [cur ++ [x]]) c d s hc hd hdip
                  hcond2 pre suf h'
                simp only [List.flatten_append, List.flatten_cons, List.flatten_nil,
                  List.append_nil, List.length_append, List.length_cons, List.length_nil] at hne ⊢
                omega
          · cases p'' with
            | nil =>
              have h' : syllableLoop (c :: d :: s) [] (syls ++ [cur ++ [x, y]]) = pre ++ suf := by
                simpa [syllableLoop, hx, hy] using hsplit
              have hne := ihn [] (by simp) [] (syls ++ [cur ++ [x, y]]) c d s hc hd hdip
                (by intro w hw; simp at hw) pre suf h'
              simp only [List.flatten_append, List.flatten_cons, List.flatten_nil,
                List.append_nil, List.length_append, List.length_cons, List.length_nil] at hne ⊢
              omega
            | cons z p3 =>
              have h' : syllableLoop (z :: (p3 ++ c :: d :: s)) [] (syls ++ [cur ++ [x, y]]) = pre ++ suf := by
                simpa [syllableLoop, hx, hy] using hsplit
              have hcond2 : ∀ w, (([] : List Char) ++ (z :: p3)).getLast? = some w → isVowel w = false := by
                intro w hw
                apply hcond w
                simp only [List.nil_append] at hw
                simp [List.getLast?_append, hw]
              have hne := ihn (z :: p3) (by simp at hp ⊢; omega) [] (syls ++ [cur ++ [x, y]]) c d s hc hd hdip
                hcond2 pre suf h'
              simp only [List.flatten_append, List.flatten_cons, List.flatten_nil,
                List.append_nil, List.length_append, List.length_cons, List.length_nil] at hne ⊢
              omega
      · have hcondshift : ∀ w, ((cur ++ [x]) ++ p').getLast? = some w → isVowel w = false := by
          intro w hw
          exact hcond w (by simpa [List.append_assoc] using hw)
        cases p' with
        | nil =>
          have h' : syllableLoop (c :: d :: s) (cur ++ [x]) syls = pre ++ suf := by
            simpa [syllableLoop, hx] using hsplit
          have hne := ihn [] (by simp) (cur ++ [x]) syls c d s hc hd hdip
            hcondshift pre suf h'
          simp only [List.length_append, List.length_cons, List.length_nil] at hne ⊢
          omega
        | cons y p'' =>
          cases p'' with
          | nil =>
            have h' : syllableLoop (y :: c :: d :: s) (cur ++ [x]) syls = pre ++ suf := by
              simpa [syllableLoop, hx] using hsplit
            have hne := ihn [y] (by simp at hp ⊢; omega) (cur ++ [x]) syls c d s hc hd hdip
              hcondshift pre suf h'
            simp only [List.length_append, List.length_cons, List.length_nil] at hne ⊢
            omega
          | cons z p3 =>
            have h' : syllableLoop (y :: z :: (p3 ++ c :: d :: s)) (cur ++ [x]) syls = pre ++ suf := by
              simpa [syllableLoop, hx] using hsplit
            have hne := ihn (y :: z :: p3) (by simp at hp ⊢; omega) (cur ++ [x]) syls c d s hc hd hdip
              hcondshift pre suf h'
            simp only [List.length_append, List.length_cons, List.length_nil] at hne ⊢
            omega


/-- The sixteen two-letter combinations listed by the specification for the
diphthong rule (this is the spec's list, for comparison with the code's
`diphthongPairs`; the code omits ("o","a") and ("o","e")). -/
def specDiphthongPairs : List (Char × Char) :=
  [('a', 'i'), ('a', 'u'), ('e', 'i'), ('e', 'u'),
   ('i', 'a'), ('i', 'e'), ('i', 'o'), ('i', 'u'),
   ('o', 'a'), ('o', 'e'), ('o', 'i'), ('o', 'u'),
   ('u', 'a'), ('u', 'e'), ('u', 'i'), ('u', 'o')]

/-- C5 counterexample: two words on which a pair from the claim's sixteen
combinations is split across two syllables.  In "boa" (clean form
['b','o','a']) the adjacent pair ('o','a') at positions 1,2 belongs to the
claimed list but not to the code's list, and the output splits right after
position 1; in "aia" the pair ('i','a') at positions 1,2 belongs even to the
code's list, yet is split because its first character was consumed by the
preceding diphthong ('a','i'). -/
theorem estimateSyllables_splits_claimed_pair :
    ('o', 'a') ∈ specDiphthongPairs ∧ ('o', 'a') ∉ diphthongPairs ∧
    pyStripChars ("boa".data.map pyLowerChar) = ['b', 'o', 'a'] ∧
    estimateSyllables "boa" = ["bo"] ++ ["a"] ∧ (String.join ["bo"]).length = 1 + 1 ∧
    ('i', 'a') ∈ specDiphthongPairs ∧ ('i', 'a') ∈ diphthongPairs ∧
    pyStripChars ("aia".data.map pyLowerChar) = ['a', 'i', 'a'] ∧
    estimateSyllables "aia" = ["ai"] ++ ["a"] ∧ (String.join ["ai"]).length = 1 + 1 := by
  decide

/-- C5 (amended): whenever the cleaned (lowercased, stripped) word decomposes
as `p ++ c :: d :: s` with `(c, d)` one of the fourteen combinations in the
code's diphthong list and the last character of `p` (when present) not a
vowel, no decomposition of the estimator's output has its prefix
concatenating to exactly `p.length + 1` characters: the two characters of
the pair always land inside one syllable string. -/
theorem diphthong_not_split (w : String) (p : List Char) (c d : Char) (s : List Char)
    (hdecomp : pyStripChars (w.data.map pyLowerChar) = p ++ c :: d :: s)
    (hc : isVowel c = true) (hd : isVowel d = true) (hdip : isDiph c d = true)
    (hprev : ∀ x, p.getLast? = some x → isVowel x = false) :
    ∀ pre suf, estimateSyllables w = pre ++ suf →
      (String.join pre).length ≠ p.length + 1 := by
  intro pre suf hsplit
  have hvc : c ∈ spanishVowels := by simpa [isVowel] using hc
  have hvd : d ∈ spanishVowels := by simpa [isVowel] using hd
  set t := pyStripChars (w.data.map pyLowerChar) with hT
  have ht : t ≠ [] := by
    rw [hdecomp]; simp
  by_cases htal : t = "tal".data
  · exfalso
    rw [htal] at hdecomp
    rcases p with _ | ⟨a, _ | ⟨b, p2⟩⟩
    · have h1 : 't' = c := by
        have := hdecomp
        simp only [List.nil_append] at this
        exact (List.cons.injEq .. ▸ this).1
      rw [← h1] at hvc
      simp [spanishVowels] at hvc
    · have h1 : 'l' = d := by
        have := hdecomp
        simp only [List.cons_append, List.nil_append] at this
        have h2 := (List.cons.injEq .. ▸ this).2
        have h3 := (List.cons.injEq .. ▸ h2).2
        exact (List.cons.injEq .. ▸ h3).1
      rw [← h1] at hvd
      simp [spanishVowels] at hvd
    · have hlen := congrArg List.length hdecomp
      simp at hlen
      omega
  · have hest : estimateSyllables w =
        (if syllableLoop t [] [] = [] then [(⟨t⟩ : String)]
         else (syllableLoop t [] []).map fun l => (⟨l⟩ : String)) := by
      simp only [estimateSyllables, ← hT, if_neg ht, if_neg htal]
    have hlen : t.length = p.length + s.length + 2 := by
      have := congrArg List.length hdecomp
      simp at this
      omega
    by_cases hloop : syllableLoop t [] [] = []
    · rw [hest, if_pos hloop] at hsplit
      have h0 : ([] : List String) ++ [(⟨t⟩ : String)] = pre ++ suf := by
        simpa using hsplit
      rcases append_singleton_split h0 with ⟨s3, h3⟩ | h2
      · have hpre : pre = [] := by
          cases pre with
          | nil => rfl
          | cons a as => simp at h3
        rw [hpre]
        simp [String.join]
      · have hj : (String.join pre).data = t := by
          rw [h2]
          simp [string_join_data]
        have : (String.join pre).length = t.length := by
          rw [show (String.join pre).length = (String.join pre).data.length from rfl, hj]
        rw [this]
        omega
    · rw [hest, if_neg hloop] at hsplit
      rcases List.map_eq_append_iff.mp hsplit with ⟨pre', suf', hL, hpre, _⟩
      have hloopsplit : syllableLoop (p ++ c :: d :: s) [] [] = pre' ++ suf' := by
        rw [← hdecomp]
        exact hL
      have hne := syllableLoop_no_break p.length p (Nat.le_refl _) [] [] c d s hc hd hdip
        (by intro x hx; exact hprev x (by simpa using hx)) pre' suf' hloopsplit
      have hdata : (String.join pre).data = pre'.flatten := by
        rw [← hpre, string_join_data, List.map_map]
        have hcomp : (String.data ∘ fun l => (⟨l⟩ : String)) = id := rfl
        rw [hcomp, List.map_id]
      have hplen : (String.join pre).length = pre'.flatten.length := by
        rw [show (String.join pre).length = (String.join pre).data.length from rfl, hdata]
      rw [hplen]
      simpa using hne

/-- Witness for `diphthong_not_split` at the concrete word "piano": the
pair ('i','a') follows the consonant 'p', the estimator yields
["pian", "o"], and the exhibited decomposition does not cut between
'i' and 'a'. -/
theorem diphthong_not_split_witness :
    estimateSyllables "piano" = ["pian"] ++ ["o"] ∧ (String.join ["pian"]).length ≠ 1 + 1 :=
  ⟨by decide,
   diphthong_not_split "piano" ['p'] 'i' 'a' "no".data
     (by decide) (by decide) (by decide) (by decide)
     (by intro x hx; simp at hx; subst hx; decide)
     ["pian"] ["o"] (by decide)⟩


/-! ## Data model (`src/shared/models.py`)

`Entity` carries the fields of the pydantic model.  Python floats are
rationals here.  `models.py` declares `speaker_id: str`, but the values the
program actually puts there are not always strings: pydantic v2 checks the
declared type only at construction (rejecting non-`str` input - the model
config has no `coerce_numbers_to_str`), while later pipeline steps
(`_apply_list_mapping`, `_apply_default_speaker`) assign raw `int`s to the
attribute, which pydantic does not re-validate (`validate_assignment` is
off).  The field is therefore modelled as the sum of the two Python value
types that can reach it. -/

/-- A Python value that is either a `str` or an `int` (the two types the
program passes or assigns for the `speaker_id` field). -/
inductive PyStrOrInt where
  | pyStr (s : String)
  | pyInt (n : Int)
deriving Repr, DecidableEq

/-- The pydantic v2 type check for a field declared `str`: a `str` value
passes, an `int` value raises a `string_type` validation error (v2 does not
coerce numbers to strings unless `coerce_numbers_to_str` is set, which this
model does not do). -/
def PyStrOrInt.isStr : PyStrOrInt → Bool
  | .pyStr _ => true
  | .pyInt _ => false

/-- Python truthiness of such a value (`not entity.speaker_id`):
`0` and `""` are falsy, everything else truthy. -/
def PyStrOrInt.isFalsy : PyStrOrInt → Bool
  | .pyStr s => s = ""
  | .pyInt n => n = 0

structure Entity where
  entity_id : String
  entity_type : String
  text : String
  start_time : ℚ
  end_time : ℚ
  duration : ℚ
  confidence : ℚ
  probability : ℚ
  syllables : List String
  syllable_count : Int
  phonetic : Option String
  quality_score : ℚ
  speaker_id : PyStrOrInt
  recording_id : String
  recording_path : String
  processed : Bool
  clip_path : Option String
  selection_reason : Option String
  created_at : String
deriving Repr, DecidableEq

/-- The pydantic validation of `Entity`: the declared `Field` bounds
(`ge`/`le`), the type check of the `str`-declared `speaker_id` field
(pydantic v2 rejects an `int` there), and the four `@field_validator`
checks (`end_time_after_start`, `duration_matches_times` with its 1 ms
tolerance, `validate_entity_type`, `syllable_count_matches_syllables`). -/
def entityChecks (e : Entity) : Prop :=
  (0 ≤ e.start_time) ∧ (0 ≤ e.end_time) ∧ (0 ≤ e.duration) ∧
  (0 ≤ e.confidence ∧ e.confidence ≤ 1) ∧
  (0 ≤ e.probability ∧ e.probability ≤ 1) ∧
  (0 ≤ e.syllable_count) ∧
  (0 ≤ e.quality_score ∧ e.quality_score ≤ 1) ∧
  (e.speaker_id.isStr = true) ∧
  (e.start_time < e.end_time) ∧
  (|e.duration - (e.end_time - e.start_time)| ≤ 1 / 1000) ∧
  (e.entity_type = "word" ∨ e.entity_type = "sentence" ∨ e.entity_type = "phrase") ∧
  (e.syllable_count = (e.syllables.length : Int))

instance (e : Entity) : Decidable (entityChecks e) := by
  unfold entityChecks
  infer_instance

/-- Constructing an `Entity` through pydantic: the value is produced exactly
when every validation check passes, otherwise construction raises
(modelled as `none`). -/
def mkEntity (e : Entity) : Option Entity :=
  if entityChecks e then some e else none

/-! ## Quality configuration and filter
(`src/shared/config.py`, `EntityCreator.apply_quality_filters`) -/

/-- `QualityConfig` with the defaults of `config.py`
(`syllable_range` is the two-element list `[min, max]`). -/
structure QualityConfig where
  min_confidence : ℚ := 8 / 10
  min_word_duration : ℚ := 3 / 10
  max_word_duration : ℚ := 3
  syllable_range : Int × Int := (2, 6)
deriving Repr, DecidableEq

/-- The hardcoded exception list of
`apply_quality_filters` (`["tal", "que", "con", "por", "sin", "son"]`). -/
def exceptionWords : List String := ["tal", "que", "con", "por", "sin", "son"]

/-- `EntityCreator.apply_quality_filters`: one pass over the entities, with
the source's `continue` chain (confidence, min duration, max duration,
syllable range with the exception list, text validation). -/
def applyQualityFilters (cfg : QualityConfig) : List Entity → List Entity
  | [] => []
  | e :: rest =>
    let recur := applyQualityFilters cfg rest
    if e.confidence < cfg.min_confidence then recur
    else if e.duration < cfg.min_word_duration then recur
    else if e.duration > cfg.max_word_duration then recur
    else if ¬(cfg.syllable_range.1 ≤ e.syllable_count ∧
              e.syllable_count ≤ cfg.syllable_range.2) ∧
            pyLower e.text ∉ exceptionWords then recur
    else if e.text = "" ∨ pyStrip e.text = "" then recur
    else e :: recur

/-! ## Entity creation (`EntityCreator.create_entities` and helpers) -/

/-- Raw word hypothesis from the transcription engine
(the `Word` dataclass of `transcription.py`). -/
structure Word where
  text : String
  start_time : ℚ
  end_time : ℚ
  confidence : ℚ
deriving Repr, DecidableEq

/-- `EntityCreator._calculate_quality_score`: weighted blend of confidence,
duration score and syllable score, clamped into [0, 1]. -/
def calculateQualityScore (confidence duration : ℚ) (syllables : List String) : ℚ :=
  let duration_score : ℚ :=
    if duration < 2 / 10 then 5 / 10 else if duration > 2 then 7 / 10 else 1
  let syllable_score : ℚ :=
    if syllables.length = 1 then 6 / 10 else if syllables.length > 5 then 8 / 10 else 1
  min 1 (max 0 (confidence * (6 / 10) + duration_score * (2 / 10) + syllable_score * (2 / 10)))

/-- One entry of the dict-style speaker mapping of
`EntityCreator._get_speaker_id`, with its "start-end" key already parsed
into the two bounds (keys or values that fail to parse are skipped by the
source with a warning and never reach the comparison). -/
structure SpeakerRange where
  range_start : ℚ
  range_end : ℚ
  speaker_id : Int
deriving Repr, DecidableEq

/-- `EntityCreator._get_speaker_id`: with no (or an empty) mapping the
speaker is 0; otherwise the first range containing the word's midpoint
(inclusive on both ends) wins, 0 when none matches. -/
def getSpeakerId (start_time end_time : ℚ)
    (mapping : Option (List SpeakerRange)) : Int :=
  match mapping with
  | none => 0
  | some entries =>
    let word_center := (start_time + end_time) / 2
    match entries.find? (fun r =>
        decide (r.range_start ≤ word_center ∧ word_center ≤ r.range_end)) with
    | some r => r.speaker_id
    | none => 0

/-- Python `f"word_{n:03d}"`: decimal digits zero-padded to width 3. -/
def zeroPad3 (n : Nat) : String :=
  let s := toString n
  if s.length < 3 then String.mk (List.replicate (3 - s.length) '0') ++ s else s

/-- The record assembled in the per-word `try` block of
`EntityCreator.create_entities` for word index `i` (0-based; the id uses
`i+1`), before pydantic validation.  The value passed for `speaker_id` is
the `int` returned by `_get_speaker_id`. -/
def wordEntityOf (mapping : Option (List SpeakerRange))
    (recording_id recording_path created_at : String)
    (i : Nat) (w : Word) : Entity :=
  let start_time := w.start_time
  let end_time := w.end_time
  let duration := end_time - start_time
  let speaker_id := getSpeakerId start_time end_time mapping
  let text := pyStrip w.text
  let syllables := estimateSyllables text
  { entity_id := "word_" ++ zeroPad3 (i + 1)
    entity_type := "word"
    text := text
    start_time := start_time
    end_time := end_time
    duration := duration
    confidence := w.confidence
    probability := w.confidence
    syllables := syllables
    syllable_count := (syllables.length : Int)
    phonetic := none
    quality_score := calculateQualityScore w.confidence duration syllables
    speaker_id := PyStrOrInt.pyInt speaker_id
    recording_id := recording_id
    recording_path := recording_path
    processed := false
    clip_path := none
    selection_reason := none
    created_at := created_at }

/-- The body of the per-word `try` block of `EntityCreator.create_entities`:
build the Entity record and run it through pydantic validation; `none`
models the exception caught by the per-word handler. -/
def mkWordEntity (mapping : Option (List SpeakerRange))
    (recording_id recording_path created_at : String)
    (i : Nat) (w : Word) : Option Entity :=
  mkEntity (wordEntityOf mapping recording_id recording_path created_at i w)

/-- The enumeration loop of `EntityCreator.create_entities`: each word is
tried independently; a failure is skipped (logged in the source) and the
loop continues with the next index. -/
def createEntitiesFrom (mapping : Option (List SpeakerRange))
    (recording_id recording_path created_at : String) :
    Nat → List Word → List Entity
  | _, [] => []
  | i, w :: rest =>
    match mkWordEntity mapping recording_id recording_path created_at i w with
    | some e => e :: createEntitiesFrom mapping recording_id recording_path created_at (i + 1) rest
    | none => createEntitiesFrom mapping recording_id recording_path created_at (i + 1) rest

/-- `EntityCreator.create_entities` (`created_at` stands for the
`datetime.now().isoformat()` timestamp taken once per batch). -/
def createEntities (mapping : Option (List SpeakerRange))
    (recording_id recording_path created_at : String)
    (words : List Word) : List Entity :=
  createEntitiesFrom mapping recording_id recording_path created_at 0 words


/-! ## C1: the quality filter as a four-predicate conjunction -/

/-- A 1-syllable entity with text "tal" meeting every other default
threshold (used for the boundary part of C1). -/
def talEntity : Entity :=
  { entity_id := "word_001", entity_type := "word", text := "tal",
    start_time := 1, end_time := 3 / 2, duration := 1 / 2,
    confidence := 9 / 10, probability := 9 / 10,
    syllables := ["tal"], syllable_count := 1, phonetic := none,
    quality_score := 4 / 5, speaker_id := PyStrOrInt.pyStr "0",
    recording_id := "rec", recording_path := "rec.wav",
    processed := false, clip_path := none, selection_reason := none,
    created_at := "2025-01-01T00:00:00" }

/-- A 1-syllable entity with text "x", otherwise identical to `talEntity`. -/
def xEntity : Entity :=
  { talEntity with entity_id := "word_002", text := "x", syllables := ["x"] }

theorem applyQualityFilters_mem (cfg : QualityConfig) (es : List Entity) (e : Entity) :
    e ∈ applyQualityFilters cfg es ↔
      e ∈ es ∧
      cfg.min_confidence ≤ e.confidence ∧
      cfg.min_word_duration ≤ e.duration ∧
      e.duration ≤ cfg.max_word_duration ∧
      (cfg.syllable_range.1 ≤ e.syllable_count ∧
         e.syllable_count ≤ cfg.syllable_range.2 ∨
       pyLower e.text ∈ exceptionWords) ∧
      pyStrip e.text ≠ "" := by
  induction es with
  | nil => simp [applyQualityFilters]
  | cons a rest ih =>
    simp only [applyQualityFilters]
    split_ifs with h1 h2 h3 h4 h5
    · rw [ih]
      constructor
      · rintro ⟨he, hp⟩
        exact ⟨List.mem_cons_of_mem _ he, hp⟩
      · rintro ⟨he, hp⟩
        rcases List.mem_cons.mp he with rfl | he2
        · exact absurd hp.1 (not_le.mpr h1)
        · exact ⟨he2, hp⟩
    · rw [ih]
      constructor
      · rintro ⟨he, hp⟩
        exact ⟨List.mem_cons_of_mem _ he, hp⟩
      · rintro ⟨he, hp⟩
        rcases List.mem_cons.mp he with rfl | he2
        · exact absurd hp.2.1 (not_le.mpr h2)
        · exact ⟨he2, hp⟩
    · rw [ih]
      constructor
      · rintro ⟨he, hp⟩
        exact ⟨List.mem_cons_of_mem _ he, hp⟩
      · rintro ⟨he, hp⟩
        rcases List.mem_cons.mp he with rfl | he2
        · exact absurd hp.2.2.1 (not_le.mpr h3)
        · exact ⟨he2, hp⟩
    · rw [ih]
      constructor
      · rintro ⟨he, hp⟩
        exact ⟨List.mem_cons_of_mem _ he, hp⟩
      · rintro ⟨he, hp⟩
        rcases List.mem_cons.mp he with rfl | he2
        · rcases hp.2.2.2.1 with hrange | hexc
          · exact absurd hrange h4.1
          · exact absurd hexc h4.2
        · exact ⟨he2, hp⟩
    · rw [ih]
      constructor
      · rintro ⟨he, hp⟩
        exact ⟨List.mem_cons_of_mem _ he, hp⟩
      · rintro ⟨he, hp⟩
        rcases List.mem_cons.mp he with rfl | he2
        · rcases h5 with htext | hstrip
          · exact absurd (show pyStrip _ = "" by rw [htext]; decide) hp.2.2.2.2
          · exact absurd hstrip hp.2.2.2.2
        · exact ⟨he2, hp⟩
    · have hpa : cfg.min_confidence ≤ a.confidence ∧
          cfg.min_word_duration ≤ a.duration ∧
          a.duration ≤ cfg.max_word_duration ∧
          (cfg.syllable_range.1 ≤ a.syllable_count ∧
             a.syllable_count ≤ cfg.syllable_range.2 ∨
           pyLower a.text ∈ exceptionWords) ∧
          pyStrip a.text ≠ "" := by
        refine ⟨not_lt.mp h1, not_lt.mp h2, not_lt.mp h3, ?_, ?_⟩
        · by_cases hr : cfg.syllable_range.1 ≤ a.syllable_count ∧
              a.syllable_count ≤ cfg.syllable_range.2
          · exact Or.inl hr
          · right
            by_contra hm
            exact h4 ⟨hr, hm⟩
        · intro hs
          exact h5 (Or.inr hs)
      constructor
      · intro hmem
        rcases List.mem_cons.mp hmem with rfl | hmem2
        · exact ⟨List.mem_cons_self _ _, hpa⟩
        · have := ih.mp hmem2
          exact ⟨List.mem_cons_of_mem _ this.1, this.2⟩
      · rintro ⟨he, hp⟩
        rcases List.mem_cons.mp he with rfl | he2
        · exact List.mem_cons_self _ _
        · exact List.mem_cons_of_mem _ (ih.mpr ⟨he2, hp⟩)

/-- C1: an entity is in the output of `apply_quality_filters` iff it is in
the input and satisfies all four predicates: confidence at least
`min_confidence`; duration within `[min_word_duration, max_word_duration]`;
syllable count within `syllable_range` unless the lowercased text is in the
exception set; non-blank stripped text.  In particular, with the default
configuration (`syllable_range = [2,6]`) the 1-syllable "tal" passes and
the 1-syllable "x" is rejected. -/
theorem apply_quality_filters_iff :
    (∀ (cfg : QualityConfig) (es : List Entity) (e : Entity),
      e ∈ applyQualityFilters cfg es ↔
        e ∈ es ∧
        cfg.min_confidence ≤ e.confidence ∧
        cfg.min_word_duration ≤ e.duration ∧
        e.duration ≤ cfg.max_word_duration ∧
        (cfg.syllable_range.1 ≤ e.syllable_count ∧
           e.syllable_count ≤ cfg.syllable_range.2 ∨
         pyLower e.text ∈ exceptionWords) ∧
        pyStrip e.text ≠ "") ∧
    talEntity ∈ applyQualityFilters {} [talEntity] ∧
    applyQualityFilters {} [xEntity] = [] := by
  refine ⟨applyQualityFilters_mem, ?_, ?_⟩
  · refine (applyQualityFilters_mem {} [talEntity] talEntity).mpr
      ⟨by simp, by norm_num [talEntity], by norm_num [talEntity], by norm_num [talEntity],
       Or.inr (by decide), by decide⟩
  · rw [List.eq_nil_iff_forall_not_mem]
    intro e he
    have h := (applyQualityFilters_mem {} [xEntity] e).mp he
    have hx : e = xEntity := by simpa using h.1
    subst hx
    rcases h.2.2.2.2.1 with hrange | hexc
    · have : ((2 : Int) ≤ 1) := by simpa [xEntity, talEntity] using hrange.1
      omega
    · revert hexc
      decide

/-! ## C3: Entity construction invariants -/

/-- C3: every successfully constructed Entity has `duration` equal to
`end_time - start_time` within the 1 ms tolerance, `syllable_count` equal to
the number of syllables, and a strictly positive time span; and a
construction attempt with `end_time ≤ start_time` fails validation instead
of producing a value. -/
theorem entity_construction_invariants :
    (∀ e e' : Entity, mkEntity e = some e' →
        |e'.duration - (e'.end_time - e'.start_time)| ≤ 1 / 1000 ∧
        e'.syllable_count = (e'.syllables.length : Int) ∧
        e'.start_time < e'.end_time) ∧
    (∀ e : Entity, e.end_time ≤ e.start_time → mkEntity e = none) := by
  constructor
  · intro e e' hmk
    rw [mkEntity] at hmk
    split_ifs at hmk with hck
    · cases hmk
      unfold entityChecks at hck
      tauto
  · intro e hle
    rw [mkEntity]
    split_ifs with hck
    · exfalso
      unfold entityChecks at hck
      have : e.start_time < e.end_time := by tauto
      exact absurd hle (not_le.mpr this)
    · rfl

/-- Witness for `entity_construction_invariants` at a concrete entity. -/
theorem entity_construction_invariants_witness :
    mkEntity talEntity = some talEntity ∧
    (|talEntity.duration - (talEntity.end_time - talEntity.start_time)| ≤ 1 / 1000 ∧
      talEntity.syllable_count = (talEntity.syllables.length : Int) ∧
      talEntity.start_time < talEntity.end_time) ∧
    mkEntity { talEntity with end_time := 1, duration := 0 } = none :=
  have hck : entityChecks talEntity := by
    refine ⟨?_, ?_, ?_, ⟨?_, ?_⟩, ⟨?_, ?_⟩, ?_, ⟨?_, ?_⟩, rfl, ?_, ?_, Or.inl rfl, rfl⟩ <;>
      norm_num [talEntity]
  have hmk : mkEntity talEntity = some talEntity := by
    rw [mkEntity, if_pos hck]
  ⟨hmk,
   entity_construction_invariants.1 talEntity talEntity hmk,
   entity_construction_invariants.2 { talEntity with end_time := 1, duration := 0 }
     (by norm_num [talEntity])⟩


/-! ## C4: which hypotheses are skipped by entity creation

In the frozen source NO hypothesis survives: `_get_speaker_id`
(`entity_creation.py:166-184`) always returns an `int` (its three return
statements are `int(...)`, `int(...)` and `0`), the record built in the
per-word `try` block passes that `int` for the `speaker_id` field declared
`str` in `models.py`, and pydantic v2 rejects it with a `string_type`
error.  The per-word handler catches the exception and skips the word, so
`create_entities` returns the empty list on every input - contradicting
both the claim and the repository's own unit test
`test_create_entities_basic`, which builds `Word("hola", 0.0, 0.5, 0.9)`
and `Word("mundo", 0.5, 1.0, 0.8)` and asserts two entities come back. -/

theorem mkWordEntity_none (mapping : Option (List SpeakerRange))
    (rid rpath ts : String) (i : Nat) (w : Word) :
    mkWordEntity mapping rid rpath ts i w = none := by
  rw [mkWordEntity, mkEntity, if_neg]
  intro hck
  obtain ⟨-, -, -, -, -, -, -, hstr, -⟩ := hck
  simp [wordEntityOf, PyStrOrInt.isStr] at hstr

/-- C4: refuted - the frozen `create_entities` skips EVERY hypothesis, not
just the claimed ones.  Part one: `create_entities` returns `[]` on every
input, because each per-word construction raises (the `int` produced by
`_get_speaker_id` fails the pydantic v2 type check of the `str`-declared
`speaker_id` field) and is caught and skipped.  Part two evaluates the
code on the fully valid hypothesis `("hola", 0.0, 0.5, 0.9)` of the
repository's own `test_create_entities_basic` - one the claim says is
converted 1:1 - and the result is empty. -/
theorem create_entities_skips_every_hypothesis :
    (∀ (mapping : Option (List SpeakerRange)) (rid rpath ts : String) (words : List Word),
        createEntities mapping rid rpath ts words = []) ∧
    createEntities none "test_recording" "test.wav" "ts"
        [{ text := "hola", start_time := 0, end_time := 1 / 2, confidence := 9 / 10 }] = [] := by
  have hall : ∀ (mapping : Option (List SpeakerRange)) (rid rpath ts : String)
      (i : Nat) (words : List Word),
      createEntitiesFrom mapping rid rpath ts i words = [] := by
    intro mapping rid rpath ts i words
    induction words generalizing i with
    | nil => rfl
    | cons w rest ih =>
      simp only [createEntitiesFrom, mkWordEntity_none]
      exact ih (i + 1)
  exact ⟨fun mapping rid rpath ts words => hall mapping rid rpath ts 0 words,
    hall none "test_recording" "test.wav" "ts" 0 _⟩


/-! ## Database aggregate (`models.py`: SpeakerInfo, WordDatabase) and a
JSON value tree for the writer's dump/parse round trip. -/

structure SpeakerInfo where
  name : String
  gender : String
  region : String
deriving Repr, DecidableEq

/-- JSON values as written by `json.dump` of the model dump (numbers stay
exact here; Python writes floats whose repr round-trips). -/
inductive Json where
  | null
  | bool (b : Bool)
  | num (q : ℚ)
  | str (s : String)
  | arr (items : List Json)
  | obj (fields : List (String × Json))
deriving Repr

/-- `WordDatabase`: metadata is an open key-value object, `speaker_map`
maps speaker-id keys (strings in JSON) to `SpeakerInfo`. -/
structure WordDatabase where
  metadata : List (String × Json)
  speaker_map : List (String × SpeakerInfo)
  entities : List Entity

/-! ## C2: smart buffering (`AudioToJsonPipeline._apply_smart_buffering`) -/

/-- The zero-gap test of `_apply_smart_buffering`:
`abs(gap) < 0.001` for `gap = next.start_time - current.end_time`. -/
def pairIsZeroGap (current next_entity : Entity) : Prop :=
  |next_entity.start_time - current.end_time| < 1 / 1000

instance (a b : Entity) : Decidable (pairIsZeroGap a b) := by
  unfold pairIsZeroGap
  infer_instance

/-- The overlap test of `_apply_smart_buffering`, reached only when the
pair is not zero-gap: `current.end_time > next.start_time`. -/
def pairIsOverlap (current next_entity : Entity) : Prop :=
  ¬pairIsZeroGap current next_entity ∧ next_entity.start_time < current.end_time

instance (a b : Entity) : Decidable (pairIsOverlap a b) := by
  unfold pairIsOverlap
  infer_instance

/-- The counting loop of `_apply_smart_buffering` over consecutive pairs of
the time-sorted entities: (zero_gap_count, overlap_count). -/
def smartPairCounts : List Entity → Nat × Nat
  | [] => (0, 0)
  | [_] => (0, 0)
  | current :: next_entity :: rest =>
    let counts := smartPairCounts (next_entity :: rest)
    if pairIsZeroGap current next_entity then (counts.1 + 1, counts.2)
    else if current.end_time > next_entity.start_time then (counts.1, counts.2 + 1)
    else counts

/-- `AudioToJsonPipeline._apply_smart_buffering`: sort the entities by
start time, count zero-gap and overlapping pairs (the source only logs the
counts), and return the database unchanged.  The counts are exposed here so
the classification can be reasoned about. -/
def applySmartBuffering (db : WordDatabase) : WordDatabase × Nat × Nat :=
  let sorted_entities := db.entities.mergeSort fun a b => decide (a.start_time ≤ b.start_time)
  (db, smartPairCounts sorted_entities)

/-- Consecutive pairs of a list. -/
def adjacentPairs (l : List Entity) : List (Entity × Entity) :=
  l.zip l.tail

theorem smartPairCounts_eq (l : List Entity) :
    smartPairCounts l =
      ((adjacentPairs l).countP (fun p => decide (pairIsZeroGap p.1 p.2)),
       (adjacentPairs l).countP (fun p => decide (pairIsOverlap p.1 p.2))) := by
  induction l with
  | nil => simp [smartPairCounts, adjacentPairs]
  | cons a rest ih =>
    cases rest with
    | nil => simp [smartPairCounts, adjacentPairs]
    | cons b rest2 =>
      have hadj : adjacentPairs (a :: b :: rest2) = (a, b) :: adjacentPairs (b :: rest2) := by
        simp [adjacentPairs]
      rw [smartPairCounts, ih, hadj]
      by_cases hz : pairIsZeroGap a b
      · simp [hz, List.countP_cons, pairIsOverlap]
      · by_cases ho : b.start_time < a.end_time
        · simp [hz, ho, List.countP_cons, pairIsOverlap]
        · simp [hz, ho, List.countP_cons, pairIsOverlap]

/-- C2: `_apply_smart_buffering` returns the database itself (no entity or
field is modified, so no buffer is ever applied to any word); over the
entities sorted by start time, the zero-gap count is exactly the number of
consecutive pairs with `|next.start_time - current.end_time| < 0.001`; and
a pair with `current.end_time = next.start_time` exactly is classified
zero-gap. -/
theorem apply_smart_buffering_frame :
    (∀ db : WordDatabase, (applySmartBuffering db).1 = db) ∧
    (∀ db : WordDatabase,
        (applySmartBuffering db).2.1 =
          (adjacentPairs (db.entities.mergeSort fun a b =>
              decide (a.start_time ≤ b.start_time))).countP
            (fun p => decide (pairIsZeroGap p.1 p.2))) ∧
    (∀ current next_entity : Entity,
        current.end_time = next_entity.start_time →
        pairIsZeroGap current next_entity) := by
  refine ⟨fun db => rfl, fun db => ?_, fun a b h => ?_⟩
  · show (smartPairCounts _).1 = _
    rw [smartPairCounts_eq]
  · unfold pairIsZeroGap
    rw [h]
    simp

/-- Witness for `apply_smart_buffering_frame`: a touching pair is zero-gap.
-/
theorem apply_smart_buffering_frame_witness :
    pairIsZeroGap talEntity { talEntity with start_time := talEntity.end_time } :=
  apply_smart_buffering_frame.2.2 talEntity
    { talEntity with start_time := talEntity.end_time } rfl


/-! ## C6: list-style speaker mapping
(`SpeakerMapper._apply_list_mapping`) -/

/-- One entry of the list-style speaker mapping (the dict keys
`start`, `end`, `speaker_id`, `speaker`); `stop` stands for the
source's "end" key. -/
structure MappingEntry where
  start : ℚ
  stop : ℚ
  speaker_id : Int
  speaker : String
deriving Repr, DecidableEq

/-- The per-entity resolution of `_apply_list_mapping`: the first entry
whose `[start, end]` interval contains the entity's midpoint (inclusive on
both ends) wins, and its raw `int` is assigned to the attribute (plain
assignment, which pydantic does not re-validate); with no match the source
sets `speaker_id` to the `int` 0 only when the current value was falsy,
leaving it unchanged otherwise. -/
def resolveListMapping (mapping : List MappingEntry) (e : Entity) : PyStrOrInt :=
  match mapping.find? (fun m =>
      decide (m.start ≤ (e.start_time + e.end_time) / 2 ∧
        (e.start_time + e.end_time) / 2 ≤ m.stop)) with
  | some m => .pyInt m.speaker_id
  | none => if e.speaker_id.isFalsy then .pyInt 0 else e.speaker_id

/-- `_apply_list_mapping` over the entity list: only `speaker_id` is
rewritten. -/
def applyListMapping (mapping : List MappingEntry) (entities : List Entity) : List Entity :=
  entities.map fun e => { e with speaker_id := resolveListMapping mapping e }

/-- The mapping of the claim:
`[{start:0, end:5, speaker_id:1}, {start:5, end:15, speaker_id:2}]`. -/
def c6Mapping : List MappingEntry :=
  [{ start := 0, stop := 5, speaker_id := 1, speaker := "María" },
   { start := 5, stop := 15, speaker_id := 2, speaker := "Carlos" }]

/-- An entity whose time midpoint is 2.75 (center of [2.5, 3]). -/
def midEntity275 : Entity :=
  { talEntity with start_time := 5 / 2, end_time := 3, duration := 1 / 2 }

/-- C6 counterexample: with the claimed mapping, an entity whose midpoint
is 2.75 resolves to speaker 1 (the first entry's interval [0,5] contains
2.75), not to speaker 2 as the claim states. -/
theorem list_mapping_counterexample :
    resolveListMapping c6Mapping midEntity275 = PyStrOrInt.pyInt 1 ∧
      PyStrOrInt.pyInt 1 ≠ PyStrOrInt.pyInt 2 := by
  constructor
  · unfold resolveListMapping
    have hmid : (midEntity275.start_time + midEntity275.end_time) / 2 = 11 / 4 := by
      norm_num [midEntity275, talEntity]
    rw [hmid, c6Mapping]
    rw [List.find?_cons_of_pos _ (by norm_num)]
  · decide

/-- C6 (amended): list-mapping resolution returns the speaker_id of the
first entry whose `[start, end]` interval contains the entity midpoint
(inclusive both ends); with the mapping
`[{0,5,speaker 1}, {5,15,speaker 2}]`, a midpoint of 0.75 resolves to
speaker 1, a midpoint of 2.75 also resolves to speaker 1 (it lies in the
first interval), and a midpoint of 10 resolves to speaker 2. -/
theorem list_mapping_resolution :
    (∀ (mapping : List MappingEntry) (e : Entity) (m : MappingEntry),
        mapping.find? (fun m2 =>
            decide (m2.start ≤ (e.start_time + e.end_time) / 2 ∧
              (e.start_time + e.end_time) / 2 ≤ m2.stop)) = some m →
        resolveListMapping mapping e = PyStrOrInt.pyInt m.speaker_id) ∧
    (∀ e : Entity, (e.start_time + e.end_time) / 2 = 3 / 4 →
        resolveListMapping c6Mapping e = PyStrOrInt.pyInt 1) ∧
    (∀ e : Entity, (e.start_time + e.end_time) / 2 = 11 / 4 →
        resolveListMapping c6Mapping e = PyStrOrInt.pyInt 1) ∧
    (∀ e : Entity, (e.start_time + e.end_time) / 2 = 10 →
        resolveListMapping c6Mapping e = PyStrOrInt.pyInt 2) := by
  refine ⟨?_, ?_, ?_, ?_⟩
  · intro mapping e m hfind
    unfold resolveListMapping
    rw [hfind]
  · intro e hmid
    unfold resolveListMapping
    rw [hmid, c6Mapping]
    rw [List.find?_cons_of_pos _ (by norm_num)]
  · intro e hmid
    unfold resolveListMapping
    rw [hmid, c6Mapping]
    rw [List.find?_cons_of_pos _ (by norm_num)]
  · intro e hmid
    unfold resolveListMapping
    rw [hmid, c6Mapping]
    rw [List.find?_cons_of_neg _ (by norm_num), List.find?_cons_of_pos _ (by norm_num)]

/-- An entity whose time midpoint is 0.75 (center of [0.5, 1]). -/
def midEntity075 : Entity :=
  { talEntity with start_time := 1 / 2, end_time := 1, duration := 1 / 2 }

/-- Witness for `list_mapping_resolution` at concrete entities. -/
theorem list_mapping_resolution_witness :
    resolveListMapping c6Mapping midEntity075 = PyStrOrInt.pyInt 1 ∧
    resolveListMapping c6Mapping midEntity275 = PyStrOrInt.pyInt 1 :=
  ⟨list_mapping_resolution.2.1 midEntity075 (by norm_num [midEntity075, talEntity]),
   list_mapping_resolution.2.2.1 midEntity275 (by norm_num [midEntity275, talEntity])⟩


/-! ## C7: transcription word extraction
(`TranscriptionEngine._transcribe_with_faster_whisper` and
`_transcribe_with_openai_whisper`).  Raised `TranscriptionError` is the
`Except.error` case; returning a list is `Except.ok`. -/

/-- Python `str.split()` (no argument): split on whitespace runs, dropping
empty pieces. -/
def wsSplitChars (l : List Char) : List (List Char) :=
  (l.foldr (fun c acc =>
    if isPySpace c then [] :: acc
    else match acc with
      | [] => [[c]]
      | w :: ws => (c :: w) :: ws) []).filter (· ≠ [])

/-- Python `str.split()` on strings. -/
def pySplit (s : String) : List String :=
  (wsSplitChars s.data).map fun l => (⟨l⟩ : String)

/-- A word entry of a faster-whisper segment (`word_info`); `stop` stands
for the `end` attribute. -/
structure FWWord where
  word : String
  start : ℚ
  stop : ℚ
  probability : ℚ
deriving Repr, DecidableEq

/-- A faster-whisper segment.  `words` is `none` when the attribute is
missing; Python also treats an empty list as falsy, so both trigger the
fallback branch. -/
structure FWSegment where
  words : Option (List FWWord)
  text : String
  start : ℚ
  stop : ℚ
deriving Repr, DecidableEq

/-- `_transcribe_with_faster_whisper`: collect word-level entries, or split
the segment text with estimated uniform timing when word timestamps are
absent; the word list is returned as-is - there is no emptiness check on
this path. -/
def transcribeFasterWhisper (segments : List FWSegment) : Except String (List Word) :=
  Except.ok (segments.flatMap fun segment =>
    match segment.words with
    | some (w0 :: ws) =>
      (w0 :: ws).map fun word_info : FWWord =>
        { text := pyStrip word_info.word
          start_time := word_info.start
          end_time := word_info.stop
          confidence := word_info.probability : Word }
    | _ =>
      let segment_words := pySplit (pyStrip segment.text)
      if segment_words.isEmpty then []
      else
        let segment_duration := segment.stop - segment.start
        let word_duration := segment_duration / (segment_words.length : ℚ)
        segment_words.enum.map fun p : Nat × String =>
          { text := p.2
            start_time := segment.start + (p.1 : ℚ) * word_duration
            end_time := segment.start + (p.1 : ℚ) * word_duration + word_duration
            confidence := 8 / 10 : Word })

/-- A word entry of an OpenAI-whisper segment
(`word_info.get("probability", 0.0)` when the key is absent). -/
structure OWWord where
  word : String
  start : ℚ
  stop : ℚ
  probability : Option ℚ
deriving Repr, DecidableEq

/-- An OpenAI-whisper segment dict. -/
structure OWSegment where
  words : Option (List OWWord)
  text : String
  start : ℚ
  stop : ℚ
  avg_logprob : Option ℚ
deriving Repr, DecidableEq

/-- The OpenAI-whisper result dict (`segments` may be absent). -/
structure OWResult where
  segments : Option (List OWSegment)
deriving Repr, DecidableEq

/-- `_transcribe_with_openai_whisper`: collect word-level entries, fall back
to segment-level splitting when none were found, raise
`TranscriptionError("No words extracted from transcription")` when the word
list is still empty, then drop words whose stripped text is empty. -/
def transcribeOpenAIWhisper (result : OWResult) : Except String (List Word) :=
  let words :=
    match result.segments with
    | none => []
    | some segs =>
      let direct := segs.flatMap fun segment =>
        match segment.words with
        | some ws =>
          ws.map fun word_info : OWWord =>
            { text := pyStrip word_info.word
              start_time := word_info.start
              end_time := word_info.stop
              confidence := word_info.probability.getD 0 : Word }
        | none => []
      if direct.isEmpty then
        segs.flatMap fun segment =>
          let segment_words := pySplit (pyStrip segment.text)
          let segment_duration := segment.stop - segment.start
          let word_duration :=
            if segment_words.isEmpty then 0
            else segment_duration / (segment_words.length : ℚ)
          segment_words.enum.map fun p : Nat × String =>
            { text := pyStrip p.2
              start_time := segment.start + (p.1 : ℚ) * word_duration
              end_time := segment.start + (p.1 : ℚ) * word_duration + word_duration
              confidence := segment.avg_logprob.getD 0 : Word }
      else direct
  if words.isEmpty then Except.error "No words extracted from transcription"
  else Except.ok (words.filter fun w => decide (w.text ≠ "" ∧ pyStrip w.text ≠ ""))

/-- C7: a transcription run yielding zero word hypotheses raises the
explicit "no words extracted" error only on the OpenAI-whisper path; the
faster-whisper path returns the empty list as a success, so the claim fails
on that implementation path (the repository's own unit test
`test_transcribe_audio_no_words_error` mocks this very path and expects the
error). -/
theorem transcription_zero_words_divergence :
    transcribeFasterWhisper [] = Except.ok [] ∧
    transcribeOpenAIWhisper { segments := some [] } =
      Except.error "No words extracted from transcription" ∧
    transcribeOpenAIWhisper { segments := none } =
      Except.error "No words extracted from transcription" := by
  refine ⟨rfl, rfl, rfl⟩


/-! ## C8: diarization error handling (`DiarizationProcessor`)

`DiarizationConfig` in the snapshot only matters through
`getattr(self.config, 'min_segment_duration', 0.5)`; the field carries that
default. -/

structure DiarizationConfig where
  min_segment_duration : ℚ := 1 / 2
deriving Repr, DecidableEq

structure SpeakerSegment where
  speaker_id : Int
  start_time : ℚ
  end_time : ℚ
  confidence : ℚ
deriving Repr, DecidableEq

structure DiarizationResult where
  speakers : List Int
  segments : List SpeakerSegment
  audio_duration : ℚ
  processing_time : ℚ
deriving Repr, DecidableEq

/-- `DiarizationProcessor._validate_result`: reject empty speaker/segment
lists, coverage below 70% of the expected duration, any non-positive
confidence, or more than 80% of segments shorter than the minimum
duration. -/
def validateResult (cfg : DiarizationConfig) (result : DiarizationResult)
    (expected_duration : ℚ) : Bool :=
  if result.speakers.isEmpty ∨ result.segments.isEmpty then false
  else
    let total_coverage := (result.segments.map fun s => s.end_time - s.start_time).sum
    let coverage_ratio := if 0 < expected_duration then total_coverage / expected_duration else 0
    if coverage_ratio < 7 / 10 then false
    else if result.segments.any fun s => decide (s.confidence ≤ 0) then false
    else
      let short_segments := result.segments.filter fun s =>
        decide (s.end_time - s.start_time < cfg.min_segment_duration)
      if (short_segments.length : ℚ) > (result.segments.length : ℚ) * (8 / 10) then false
      else true

/-- `DiarizationProcessor._create_single_speaker_fallback`: one segment for
speaker 0 with confidence 1.0 spanning `[0, max(1.0, duration)]`
(1.0 when the duration is not positive). -/
def createSingleSpeakerFallback (duration processing_time : ℚ) : DiarizationResult :=
  let valid_duration := if 0 < duration then max 1 duration else 1
  { speakers := [0]
    segments := [{ speaker_id := 0, start_time := 0,
                   end_time := valid_duration, confidence := 1 }]
    audio_duration := valid_duration
    processing_time := processing_time }

/-- Outcome of invoking the PyAnnote pipeline and converting its output:
either an exception (any diarization error) or a converted result. -/
inductive DiarOutcome where
  | err (msg : String)
  | ok (result : DiarizationResult)

/-- `DiarizationProcessor.process_audio`: the input checks, the dependency
check, the diarization call and the quality gate; every raised error is
caught and every failure path returns the single-speaker fallback. -/
def processAudio (cfg : DiarizationConfig) (fileExists pyannoteAvailable : Bool)
    (audio_duration : ℚ) (raw : DiarOutcome) (processing_time : ℚ) : DiarizationResult :=
  if ¬fileExists then createSingleSpeakerFallback audio_duration processing_time
  else if audio_duration ≤ 0 then createSingleSpeakerFallback audio_duration processing_time
  else if ¬pyannoteAvailable then createSingleSpeakerFallback audio_duration processing_time
  else match raw with
    | .err _ => createSingleSpeakerFallback audio_duration processing_time
    | .ok result =>
      if validateResult cfg result audio_duration then result
      else createSingleSpeakerFallback audio_duration processing_time

/-- A result covering only 50% of a declared 0.5 s duration: rejected by
the coverage gate. -/
def c8BadResult : DiarizationResult :=
  { speakers := [0]
    segments := [{ speaker_id := 0, start_time := 0, end_time := 1 / 4, confidence := 9 / 10 }]
    audio_duration := 1 / 2
    processing_time := 0 }

theorem validateResult_c8BadResult :
    validateResult {} c8BadResult (1 / 2) = false := by
  unfold validateResult c8BadResult
  norm_num

/-- C8 counterexample: for a declared duration of 0.5 s and a result
rejected by the quality gate, `process_audio` returns the fallback whose
single segment spans `[0, 1.0]` - not the declared 0.5 s duration. -/
theorem diarization_fallback_counterexample :
    (processAudio {} true true (1 / 2) (.ok c8BadResult) 0).segments =
      [{ speaker_id := 0, start_time := 0, end_time := 1, confidence := 1 }] ∧
    (1 : ℚ) ≠ 1 / 2 := by
  constructor
  · unfold processAudio
    rw [if_neg (by norm_num), if_neg (by norm_num), if_neg (by norm_num)]
    show (if validateResult {} c8BadResult (1 / 2) = true then c8BadResult
        else createSingleSpeakerFallback (1 / 2) 0).segments = _
    rw [validateResult_c8BadResult]
    simp only [Bool.false_eq_true, if_false]
    unfold createSingleSpeakerFallback
    rw [if_pos (by norm_num)]
    norm_num
  · norm_num

/-- C8 (amended): `process_audio` never propagates a diarization failure:
for every raised error and for every result rejected by the quality gate it
returns the single-speaker fallback, whose speakers list is `[0]` and whose
single segment has speaker 0 and confidence 1.0 and spans
`[0, max(1.0, declared duration)]` (1.0 when the declared duration is not
positive) - equal to the full declared duration only when that duration is
at least 1 s. -/
theorem diarization_never_propagates :
    (∀ (cfg : DiarizationConfig) (fe pa : Bool) (dur pt : ℚ) (msg : String),
        processAudio cfg fe pa dur (.err msg) pt = createSingleSpeakerFallback dur pt) ∧
    (∀ (cfg : DiarizationConfig) (dur pt : ℚ) (result : DiarizationResult),
        validateResult cfg result dur = false →
        processAudio cfg true true dur (.ok result) pt = createSingleSpeakerFallback dur pt) ∧
    (∀ dur pt : ℚ,
        (createSingleSpeakerFallback dur pt).speakers = [0] ∧
        (createSingleSpeakerFallback dur pt).segments =
          [{ speaker_id := 0, start_time := 0,
             end_time := if 0 < dur then max 1 dur else 1, confidence := 1 }]) := by
  refine ⟨?_, ?_, ?_⟩
  · intro cfg fe pa dur pt msg
    unfold processAudio
    split_ifs <;> rfl
  · intro cfg dur pt result hval
    unfold processAudio
    split_ifs with h1 h2
    all_goals try rfl
    all_goals
      show (if validateResult cfg result dur = true then result
          else createSingleSpeakerFallback dur pt) = createSingleSpeakerFallback dur pt
      rw [hval]
      simp
  · intro dur pt
    unfold createSingleSpeakerFallback
    exact ⟨rfl, rfl⟩

/-- Witness for `diarization_never_propagates` at a concrete rejected
result. -/
theorem diarization_never_propagates_witness :
    processAudio {} true true (1 / 2) (.ok c8BadResult) 0 =
      createSingleSpeakerFallback (1 / 2) 0 :=
  diarization_never_propagates.2.1 {} (1 / 2) 0 c8BadResult validateResult_c8BadResult


/-! ## C9: database JSON round trip (`DatabaseWriter._write_json_file`
dumps `database.model_dump()`; `_validate_written_file` re-parses with
`WordDatabase.model_validate`).  The embedding works on the JSON value
tree: Python's `json.dump`/`json.load` with `ensure_ascii=False` maps the
tree to text and back, preserving strings (Unicode included) and float
reprs exactly. -/

def optStrJson : Option String → Json
  | none => Json.null
  | some s => Json.str s

/-- `model_dump` emits the stored Python value of `speaker_id` as is: a
string dumps as a JSON string, an assigned integer as a JSON number. -/
def pyStrOrIntJson : PyStrOrInt → Json
  | .pyStr s => .str s
  | .pyInt n => .num (n : ℚ)

/-- `Entity.model_dump()` as a JSON object, fields in declaration order. -/
def entityToJson (e : Entity) : Json :=
  Json.obj [
    ("entity_id", .str e.entity_id),
    ("entity_type", .str e.entity_type),
    ("text", .str e.text),
    ("start_time", .num e.start_time),
    ("end_time", .num e.end_time),
    ("duration", .num e.duration),
    ("confidence", .num e.confidence),
    ("probability", .num e.probability),
    ("syllables", .arr (e.syllables.map Json.str)),
    ("syllable_count", .num (e.syllable_count : ℚ)),
    ("phonetic", optStrJson e.phonetic),
    ("quality_score", .num e.quality_score),
    ("speaker_id", pyStrOrIntJson e.speaker_id),
    ("recording_id", .str e.recording_id),
    ("recording_path", .str e.recording_path),
    ("processed", .bool e.processed),
    ("clip_path", optStrJson e.clip_path),
    ("selection_reason", optStrJson e.selection_reason),
    ("created_at", .str e.created_at)]

def speakerInfoToJson (s : SpeakerInfo) : Json :=
  Json.obj [("name", .str s.name), ("gender", .str s.gender), ("region", .str s.region)]

/-- `WordDatabase.model_dump()` as a JSON object. -/
def databaseToJson (db : WordDatabase) : Json :=
  Json.obj [
    ("metadata", .obj db.metadata),
    ("speaker_map", .obj (db.speaker_map.map fun p => (p.1, speakerInfoToJson p.2))),
    ("entities", .arr (db.entities.map entityToJson))]

def Json.getStr? : Json → Option String
  | .str s => some s
  | _ => none

def Json.getNum? : Json → Option ℚ
  | .num q => some q
  | _ => none

/-- JSON integers (numbers with denominator 1) for pydantic `int` fields. -/
def Json.getInt? : Json → Option Int
  | .num q => if q.den = 1 then some q.num else none
  | _ => none

def Json.getBool? : Json → Option Bool
  | .bool b => some b
  | _ => none

def Json.getArr? : Json → Option (List Json)
  | .arr items => some items
  | _ => none

def Json.getObj? : Json → Option (List (String × Json))
  | .obj fields => some fields
  | _ => none

def Json.getOptStr? : Json → Option (Option String)
  | .null => some none
  | .str s => some (some s)
  | _ => none


/-- Parsing one entity object back through the pydantic model: extract and
type-check each field (for the `str`-declared `speaker_id` only a JSON
string validates, per the pydantic v2 type check), then run the `Entity`
validation.  (Written as an explicit match chain; each step is one field
extraction.) -/
def entityFromJson (j : Json) : Option Entity :=
  match j.getObj? with
  | none => none
  | some fields =>
    match (fields.lookup "entity_id").bind Json.getStr? with
    | none => none
    | some entity_id =>
      match (fields.lookup "entity_type").bind Json.getStr? with
      | none => none
      | some entity_type =>
        match (fields.lookup "text").bind Json.getStr? with
        | none => none
        | some text =>
          match (fields.lookup "start_time").bind Json.getNum? with
          | none => none
          | some start_time =>
            match (fields.lookup "end_time").bind Json.getNum? with
            | none => none
            | some end_time =>
              match (fields.lookup "duration").bind Json.getNum? with
              | none => none
              | some duration =>
                match (fields.lookup "confidence").bind Json.getNum? with
                | none => none
                | some confidence =>
                  match (fields.lookup "probability").bind Json.getNum? with
                  | none => none
                  | some probability =>
                    match (fields.lookup "syllables").bind Json.getArr? with
                    | none => none
                    | some syllablesJson =>
                      match syllablesJson.mapM Json.getStr? with
                      | none => none
                      | some syllables =>
                        match (fields.lookup "syllable_count").bind Json.getInt? with
                        | none => none
                        | some syllable_count =>
                          match (fields.lookup "phonetic").bind Json.getOptStr? with
                          | none => none
                          | some phonetic =>
                            match (fields.lookup "quality_score").bind Json.getNum? with
                            | none => none
                            | some quality_score =>
                              match (fields.lookup "speaker_id").bind Json.getStr? with
                              | none => none
                              | some speaker_id =>
                                match (fields.lookup "recording_id").bind Json.getStr? with
                                | none => none
                                | some recording_id =>
                                  match (fields.lookup "recording_path").bind Json.getStr? with
                                  | none => none
                                  | some recording_path =>
                                    match (fields.lookup "processed").bind Json.getBool? with
                                    | none => none
                                    | some processed =>
                                      match (fields.lookup "clip_path").bind Json.getOptStr? with
                                      | none => none
                                      | some clip_path =>
                                        match (fields.lookup "selection_reason").bind Json.getOptStr? with
                                        | none => none
                                        | some selection_reason =>
                                          match (fields.lookup "created_at").bind Json.getStr? with
                                          | none => none
                                          | some created_at =>
                                            mkEntity { entity_id := entity_id, entity_type := entity_type,
                                                        text := text, start_time := start_time,
                                                        end_time := end_time, duration := duration,
                                                        confidence := confidence, probability := probability,
                                                        syllables := syllables, syllable_count := syllable_count,
                                                        phonetic := phonetic, quality_score := quality_score,
                                                        speaker_id := PyStrOrInt.pyStr speaker_id,
                                                        recording_id := recording_id,
                                                        recording_path := recording_path,
                                                        processed := processed, clip_path := clip_path,
                                                        selection_reason := selection_reason,
                                                        created_at := created_at }

/-- Parsing one `SpeakerInfo` (with its gender validator). -/
def speakerInfoFromJson (j : Json) : Option SpeakerInfo :=
  match j.getObj? with
  | none => none
  | some fields =>
    match (fields.lookup "name").bind Json.getStr? with
    | none => none
    | some name =>
      match (fields.lookup "gender").bind Json.getStr? with
      | none => none
      | some gender =>
        match (fields.lookup "region").bind Json.getStr? with
        | none => none
        | some region =>
          if gender = "M" ∨ gender = "F" ∨ gender = "Unknown" then
            some { name, gender, region }
          else none

/-- `WordDatabase.model_validate` over the JSON tree (with the
`validate_metadata` check for the required `version` and `created_at`
keys). -/
def databaseFromJson (j : Json) : Option WordDatabase :=
  match j.getObj? with
  | none => none
  | some fields =>
    match (fields.lookup "metadata").bind Json.getObj? with
    | none => none
    | some metadata =>
      if (metadata.lookup "version").isSome ∧ (metadata.lookup "created_at").isSome then
        match (fields.lookup "speaker_map").bind Json.getObj? with
        | none => none
        | some speakerFields =>
          match speakerFields.mapM fun p =>
              (speakerInfoFromJson p.2).map fun si => (p.1, si) with
          | none => none
          | some speaker_map =>
            match (fields.lookup "entities").bind Json.getArr? with
            | none => none
            | some entitiesJson =>
              match entitiesJson.mapM entityFromJson with
              | none => none
              | some entities => some { metadata, speaker_map, entities }
      else none

/-- The `SpeakerInfo` gender validator's accepted values. -/
def validSpeakerInfo (s : SpeakerInfo) : Prop :=
  s.gender = "M" ∨ s.gender = "F" ∨ s.gender = "Unknown"

/-- A well-formed in-memory `WordDatabase`: the metadata carries the two
required keys and every stored value passes its own model validation (which
is how every pydantic-constructed instance looks). -/
def validWordDatabase (db : WordDatabase) : Prop :=
  (db.metadata.lookup "version").isSome = true ∧
  (db.metadata.lookup "created_at").isSome = true ∧
  (∀ p ∈ db.speaker_map, validSpeakerInfo p.2) ∧
  (∀ e ∈ db.entities, entityChecks e)

theorem mapM_loop_getStr (l acc : List String) :
    List.mapM.loop Json.getStr? (l.map Json.str) acc = some (acc.reverse ++ l) := by
  induction l generalizing acc with
  | nil => simp [List.mapM.loop]
  | cons s rest ih => simp [List.mapM.loop, Json.getStr?, ih]

set_option maxHeartbeats 1000000 in
theorem entityFromJson_roundtrip (e : Entity) (he : entityChecks e) :
    entityFromJson (entityToJson e) = some e := by
  obtain ⟨eid, ety, tx, st, en, du, cf, pb, syl, sc, ph, qs, sp, rid, rp, pr, cp, sr, ca⟩ := e
  cases sp with
  | pyInt n =>
    exfalso
    obtain ⟨-, -, -, -, -, -, -, hstr, -⟩ := he
    simp [PyStrOrInt.isStr] at hstr
  | pyStr s =>
    unfold entityFromJson entityToJson
    cases ph <;> cases cp <;> cases sr <;>
      simp [Json.getObj?, Json.getStr?, Json.getNum?, Json.getBool?, Json.getArr?,
        Json.getInt?, Json.getOptStr?, optStrJson, pyStrOrIntJson, List.lookup,
        List.mapM, mapM_loop_getStr, Rat.den_intCast, Rat.num_intCast] <;>
      exact (by rw [mkEntity, if_pos he] : mkEntity _ = _)


theorem speakerInfoFromJson_roundtrip (s : SpeakerInfo) (hs : validSpeakerInfo s) :
    speakerInfoFromJson (speakerInfoToJson s) = some s := by
  obtain ⟨name, gender, region⟩ := s
  unfold speakerInfoFromJson speakerInfoToJson
  simp [Json.getObj?, Json.getStr?, List.lookup]
  unfold validSpeakerInfo at hs
  tauto

theorem mapM_loop_speakerInfo (l : List (String × SpeakerInfo))
    (acc : List (String × SpeakerInfo)) (h : ∀ p ∈ l, validSpeakerInfo p.2) :
    List.mapM.loop (fun p => (speakerInfoFromJson p.2).map fun si => (p.1, si))
      (l.map fun p => (p.1, speakerInfoToJson p.2)) acc = some (acc.reverse ++ l) := by
  induction l generalizing acc with
  | nil => simp [List.mapM.loop]
  | cons p rest ih =>
    simp [List.mapM.loop,
      speakerInfoFromJson_roundtrip p.2 (h p (List.mem_cons_self _ _)),
      ih _ (fun q hq => h q (List.mem_cons_of_mem _ hq))]

theorem mapM_loop_entityFromJson (l acc : List Entity) (h : ∀ e ∈ l, entityChecks e) :
    List.mapM.loop entityFromJson (l.map entityToJson) acc = some (acc.reverse ++ l) := by
  induction l generalizing acc with
  | nil => simp [List.mapM.loop]
  | cons e rest ih =>
    simp [List.mapM.loop,
      entityFromJson_roundtrip e (h e (List.mem_cons_self _ _)),
      ih _ (fun e2 he2 => h e2 (List.mem_cons_of_mem _ he2))]

/-- C9: dumping a valid `WordDatabase` to JSON (as the database writer
does) and re-validating the parsed JSON reproduces the database exactly -
in particular the entity list, with all texts (Unicode included), times and
ids equal. -/
theorem database_json_roundtrip (db : WordDatabase) (hdb : validWordDatabase db) :
    databaseFromJson (databaseToJson db) = some db := by
  obtain ⟨hv, hc, hsm, hent⟩ := hdb
  obtain ⟨metadata, speaker_map, entities⟩ := db
  unfold databaseFromJson databaseToJson
  simp only [Json.getObj?, Json.getArr?, List.lookup, List.mapM] at *
  simp [hv, hc, List.lookup, Json.getObj?, Json.getArr?,
    mapM_loop_speakerInfo speaker_map [] hsm,
    mapM_loop_entityFromJson entities [] hent]


/-- A concrete entity with Unicode text "niño". -/
def ninoEntity : Entity :=
  { talEntity with
    entity_id := "word_001"
    text := "niño"
    syllables := ["ni", "ño"]
    syllable_count := 2 }

/-- A concrete entity with Unicode text "corazón". -/
def corazonEntity : Entity :=
  { talEntity with
    entity_id := "word_002"
    text := "corazón"
    syllables := ["co", "ra", "zón"]
    syllable_count := 3 }

theorem entityChecks_ninoEntity : entityChecks ninoEntity := by
  refine ⟨?_, ?_, ?_, ⟨?_, ?_⟩, ⟨?_, ?_⟩, ?_, ⟨?_, ?_⟩, rfl, ?_, ?_, Or.inl rfl, rfl⟩ <;>
    norm_num [ninoEntity, talEntity]

theorem entityChecks_corazonEntity : entityChecks corazonEntity := by
  refine ⟨?_, ?_, ?_, ⟨?_, ?_⟩, ⟨?_, ?_⟩, ?_, ⟨?_, ?_⟩, rfl, ?_, ?_, Or.inl rfl, rfl⟩ <;>
    norm_num [corazonEntity, talEntity]

/-- A concrete valid database holding the two Unicode entities. -/
def c9Database : WordDatabase :=
  { metadata := [("version", .str "1.0"), ("created_at", .str "2025-01-01T00:00:00")]
    speaker_map := [("0", { name := "Default Speaker", gender := "Unknown", region := "Unknown" })]
    entities := [ninoEntity, corazonEntity] }

/-- Witness for `database_json_roundtrip`: the concrete database with
"niño" and "corazón" survives the dump/parse round trip exactly. -/
theorem database_json_roundtrip_witness :
    databaseFromJson (databaseToJson c9Database) = some c9Database ∧
    (c9Database.entities.map fun e => e.text) = ["niño", "corazón"] := by
  constructor
  · apply database_json_roundtrip
    refine ⟨rfl, rfl, ?_, ?_⟩
    · intro p hp
      simp only [c9Database, List.mem_singleton] at hp
      subst hp
      exact Or.inr (Or.inr rfl)
    · intro e he
      simp only [c9Database, List.mem_cons, List.not_mem_nil, or_false] at he
      rcases he with h | h
      · subst h; exact entityChecks_ninoEntity
      · subst h; exact entityChecks_corazonEntity
  · rfl

end PronClips
